import Mathlib

/-!
Shallow embedding of the core of the `http-sequential-thinking` server
(`SequentialThinkingServer` and the session registry of `runServer`).
JavaScript runtime values delivered to `processThought` are modelled by
`JSValue`; JavaScript numbers are modelled as integers (no claim here
depends on non-integral or NaN inputs).
-/

namespace SeqThink

/-- Model of a JavaScript runtime value as it can appear in a parsed tool-call
payload.  `undef` is JavaScript `undefined`; an absent object field reads as
`undefined`. -/
inductive JSValue where
  | str (s : String)
  | num (n : Int)
  | bool (b : Bool)
  | null
  | undef
  | obj (fields : List (String × JSValue))

/-- Property read `value[key]`: object lookup; reads on primitive values yield
`undefined` (none).  Reads on `null`/`undefined` throw in JavaScript and are
handled before this function is used. -/
def getField (v : JSValue) (key : String) : Option JSValue :=
  match v with
  | .obj fields => (fields.find? (fun p => p.1 == key)).map Prod.snd
  | _ => none

/-- JavaScript truthiness of a value. -/
def truthy : JSValue → Bool
  | .str s => s ≠ ""
  | .num n => n ≠ 0
  | .bool b => b
  | .null => false
  | .undef => false
  | .obj _ => true

/-- Truthiness of a possibly-absent value (`undefined` when absent). -/
def truthyOpt : Option JSValue → Bool
  | none => false
  | some v => truthy v

/-- String coercion used when a value is used as an object property key. -/
def toPropertyKey : JSValue → String
  | .str s => s
  | .num n => toString n
  | .bool b => if b then "true" else "false"
  | .null => "null"
  | .undef => "undefined"
  | .obj _ => "[object Object]"

/-- Embedding of the `ThoughtData` interface after validation.  The four
required fields carry their checked primitive values; the five optional fields
are unchecked casts in the source (`data.isRevision as boolean | undefined`),
so they are modelled as the raw looked-up value, `none` when absent. -/
structure ThoughtData where
  thought : String
  thoughtNumber : Int
  totalThoughts : Int
  nextThoughtNeeded : Bool
  isRevision : Option JSValue
  revisesThought : Option JSValue
  branchFromThought : Option JSValue
  branchId : Option JSValue
  needsMoreThoughts : Option JSValue

/-- Embedding of `SequentialThinkingServer.validateThoughtData`.  Each guard
`!data.f || typeof data.f !== 'T'` fails exactly when the field is not a truthy
value of type `T`, so the success branches match a present, truthy, correctly
typed value.  A `null` or `undefined` input makes the first property read
throw a `TypeError` in JavaScript, which the caller's catch block converts to
a failure like any validation error. -/
def validateThoughtData (input : JSValue) : Except String ThoughtData :=
  match input with
  | .null => .error "TypeError: Cannot read properties of null (reading thought)"
  | .undef => .error "TypeError: Cannot read properties of undefined (reading thought)"
  | _ =>
    match getField input "thought" with
    | some (.str s) =>
      if s = "" then .error "Invalid thought: must be a string"
      else
        match getField input "thoughtNumber" with
        | some (.num tn) =>
          if tn = 0 then .error "Invalid thoughtNumber: must be a number"
          else
            match getField input "totalThoughts" with
            | some (.num tt) =>
              if tt = 0 then .error "Invalid totalThoughts: must be a number"
              else
                match getField input "nextThoughtNeeded" with
                | some (.bool b) =>
                  .ok { thought := s
                        thoughtNumber := tn
                        totalThoughts := tt
                        nextThoughtNeeded := b
                        isRevision := getField input "isRevision"
                        revisesThought := getField input "revisesThought"
                        branchFromThought := getField input "branchFromThought"
                        branchId := getField input "branchId"
                        needsMoreThoughts := getField input "needsMoreThoughts" }
                | _ => .error "Invalid nextThoughtNeeded: must be a boolean"
            | _ => .error "Invalid totalThoughts: must be a number"
        | _ => .error "Invalid thoughtNumber: must be a number"
    | _ => .error "Invalid thought: must be a string"

/-- JSON value produced by the server for a result body. -/
inductive Json where
  | str (s : String)
  | num (n : Int)
  | bool (b : Bool)
  | arr (items : List Json)
  | obj (fields : List (String × Json))

/-- One entry of a result's `content` array. -/
structure ContentBlock where
  type : String
  text : Json

/-- Shape of the value returned by `processThought` (and by the tool-call
handler): a content array plus an optional `isError` flag, absent on
success. -/
structure ToolResult where
  content : List ContentBlock
  isError : Option Bool

/-- Per-session state of a `SequentialThinkingServer`: the `thoughtHistory`
array and the `branches` object, the latter as an insertion-ordered
association list. -/
structure ServerState where
  thoughtHistory : List ThoughtData
  branches : List (String × List ThoughtData)

/-- State of a freshly constructed `SequentialThinkingServer`. -/
def initState : ServerState :=
  { thoughtHistory := [], branches := [] }

/-- The auto-raise step of `processThought`: if `thoughtNumber` exceeds
`totalThoughts`, raise `totalThoughts` to `thoughtNumber`. -/
def adjustTotal (v : ThoughtData) : ThoughtData :=
  if v.thoughtNumber > v.totalThoughts then { v with totalThoughts := v.thoughtNumber } else v

/-- Append a record to `branches[key]`, creating the bucket at the end of the
object if absent (JavaScript property creation order). -/
def pushBranch (branches : List (String × List ThoughtData)) (key : String)
    (r : ThoughtData) : List (String × List ThoughtData) :=
  if branches.any (fun p => p.1 == key) then
    branches.map (fun p => if p.1 == key then (p.1, p.2 ++ [r]) else p)
  else
    branches ++ [(key, [r])]

/-- Own property names of `Object.prototype` in the Node runtime.  Since the
source's `branches` is a plain object, a property read for one of these keys
with no own bucket finds the inherited member — a function, or the prototype
object itself for `__proto__` — every one of them truthy. -/
def objectProtoKeys : List String :=
  ["constructor", "hasOwnProperty", "isPrototypeOf", "propertyIsEnumerable",
   "toLocaleString", "toString", "valueOf", "__defineGetter__",
   "__defineSetter__", "__lookupGetter__", "__lookupSetter__", "__proto__"]

/-- Message of the `TypeError` thrown when the branch append calls `.push` on
an inherited `Object.prototype` member; the catch block serializes
`error.message`. -/
def pushTypeErrorMsg : String :=
  "this.branches[validatedInput.branchId].push is not a function"

/-- Guard of the branch append: both optional fields truthy. -/
def branchGuard (v : ThoughtData) : Bool :=
  truthyOpt v.branchFromThought && truthyOpt v.branchId

/-- Property key under which the record's `branchId` is stored. -/
def branchKeyOf (v : ThoughtData) : String :=
  toPropertyKey (v.branchId.getD .undef)

/-- Whether the source's branch append throws: the guard
`!this.branches[branchId]` reads through the prototype chain, so with no own
bucket and a key naming an `Object.prototype` member the read is truthy,
bucket creation is skipped, and `.push` on the inherited non-array throws a
`TypeError`. -/
def branchAppendThrows (branches : List (String × List ThoughtData))
    (key : String) : Bool :=
  !branches.any (fun p => p.1 == key) && objectProtoKeys.contains key

/-- Failure result built by the catch block of `processThought`:
`error` message plus `status: "failed"`, tagged as an error. -/
def errorResultFor (msg : String) : ToolResult :=
  { content := [{ type := "text"
                  text := .obj [("error", .str msg), ("status", .str "failed")] }]
    isError := some true }

/-- Success result of `processThought`: the JSON summary of the post-call
state. -/
def successResultFor (v : ThoughtData) (br : List (String × List ThoughtData))
    (hist : List ThoughtData) : ToolResult :=
  { content := [{ type := "text"
                  text := .obj [("thoughtNumber", .num v.thoughtNumber),
                                ("totalThoughts", .num v.totalThoughts),
                                ("nextThoughtNeeded", .bool v.nextThoughtNeeded),
                                ("branches", .arr (br.map (fun p => .str p.1))),
                                ("thoughtHistoryLength", .num hist.length)] }]
    isError := none }

/-- Embedding of `SequentialThinkingServer.processThought`.  After validation
the adjusted record is pushed to `thoughtHistory` unconditionally; the branch
append then either pushes into an own bucket, creates a missing bucket, or —
when the key has no own bucket but names an `Object.prototype` member — throws
the `TypeError` that the catch block converts to a failure result, leaving
`branches` unchanged although the history push has already happened.  The
returned `ToolResult` carries the structured JSON body that the source
serializes with `JSON.stringify`; serialization itself is presentation and is
not modelled. -/
def processThought (s : ServerState) (input : JSValue) : ServerState × ToolResult :=
  match validateThoughtData input with
  | .error msg => (s, errorResultFor msg)
  | .ok v0 =>
    let v := adjustTotal v0
    let hist := s.thoughtHistory ++ [v]
    if branchGuard v && branchAppendThrows s.branches (branchKeyOf v) then
      ({ thoughtHistory := hist, branches := s.branches },
       errorResultFor pushTypeErrorMsg)
    else
      let br := if branchGuard v then pushBranch s.branches (branchKeyOf v) v
                else s.branches
      ({ thoughtHistory := hist, branches := br }, successResultFor v br hist)

/-- Run a sequence of `processThought` calls against one server, keeping the
final state. -/
def runCalls (s : ServerState) (inputs : List JSValue) : ServerState :=
  inputs.foldl (fun st i => (processThought st i).1) s

/-- Body of the first content block of a result, if any. -/
def resultBody (r : ToolResult) : Option Json :=
  match r.content with
  | b :: _ => some b.text
  | [] => none

/-- Lookup of a key in a JSON object value. -/
def jsonGet (j : Json) (key : String) : Option Json :=
  match j with
  | .obj fields => (fields.find? (fun p => p.1 == key)).map Prod.snd
  | _ => none

/-- Field of the JSON summary carried by a result. -/
def summaryField (r : ToolResult) (key : String) : Option Json :=
  match resultBody r with
  | some j => jsonGet j key
  | none => none

/-- A validation failure returns the error result and leaves the state. -/
theorem processThought_validation_error (s : ServerState) (input : JSValue)
    (msg : String) (h : validateThoughtData input = .error msg) :
    processThought s input = (s, errorResultFor msg) := by
  simp [processThought, h]

/-- The branch-append TypeError case: the history push has already happened,
`branches` is unchanged, and the caught error is returned. -/
theorem processThought_throw (s : ServerState) (input : JSValue) (v : ThoughtData)
    (h : validateThoughtData input = .ok v)
    (hc : (branchGuard (adjustTotal v) &&
      branchAppendThrows s.branches (branchKeyOf (adjustTotal v))) = true) :
    processThought s input =
      ({ thoughtHistory := s.thoughtHistory ++ [adjustTotal v], branches := s.branches },
       errorResultFor pushTypeErrorMsg) := by
  simp [processThought, h, hc]

/-- The non-throwing case: the history is appended, the branches object is
pushed under the branch guard, and the success summary is returned. -/
theorem processThought_ok (s : ServerState) (input : JSValue) (v : ThoughtData)
    (h : validateThoughtData input = .ok v)
    (hc : (branchGuard (adjustTotal v) &&
      branchAppendThrows s.branches (branchKeyOf (adjustTotal v))) = false) :
    processThought s input =
      ({ thoughtHistory := s.thoughtHistory ++ [adjustTotal v]
         branches := if branchGuard (adjustTotal v)
                     then pushBranch s.branches (branchKeyOf (adjustTotal v)) (adjustTotal v)
                     else s.branches },
       successResultFor (adjustTotal v)
         (if branchGuard (adjustTotal v)
          then pushBranch s.branches (branchKeyOf (adjustTotal v)) (adjustTotal v)
          else s.branches)
         (s.thoughtHistory ++ [adjustTotal v])) := by
  simp only [processThought, h]
  rw [if_neg]
  simp [hc]

/-- Stated from the spec (§4.1 check 1, as amended): `thought` is present and a
non-empty string. -/
def thoughtCheck (input : JSValue) : Bool :=
  match getField input "thought" with
  | some (.str s) => s != ""
  | _ => false

/-- Stated from the spec (§4.1 check 2, as amended): `thoughtNumber` is present,
numeric, and truthy (nonzero). -/
def thoughtNumberCheck (input : JSValue) : Bool :=
  match getField input "thoughtNumber" with
  | some (.num n) => n != 0
  | _ => false

/-- Stated from the spec (§4.1 check 3, as amended): `totalThoughts` is present,
numeric, and truthy (nonzero). -/
def totalThoughtsCheck (input : JSValue) : Bool :=
  match getField input "totalThoughts" with
  | some (.num n) => n != 0
  | _ => false

/-- Stated from the spec (§4.1 check 4): `nextThoughtNeeded` is present and
boolean. -/
def nextThoughtNeededCheck (input : JSValue) : Bool :=
  match getField input "nextThoughtNeeded" with
  | some (.bool _) => true
  | _ => false

/-- Conjunction of the four required-field checks, in the spec's order. -/
def requiredChecksOk (input : JSValue) : Bool :=
  thoughtCheck input && thoughtNumberCheck input &&
    totalThoughtsCheck input && nextThoughtNeededCheck input

/-- Stated from claim C3's wording, verbatim: validation succeeds iff `thought`
is present and a non-empty string, `thoughtNumber` is present and numeric,
`totalThoughts` is present and numeric, and `nextThoughtNeeded` is present and
boolean (no truthiness requirement on the numeric fields). -/
def claimedValidationOk (input : JSValue) : Bool :=
  (match getField input "thought" with
   | some (.str s) => s != ""
   | _ => false) &&
  (match getField input "thoughtNumber" with
   | some (.num _) => true
   | _ => false) &&
  (match getField input "totalThoughts" with
   | some (.num _) => true
   | _ => false) &&
  (match getField input "nextThoughtNeeded" with
   | some (.bool _) => true
   | _ => false)

/-- Message of the first violated check, in the order of the source's guards. -/
def firstViolationMsg (input : JSValue) : String :=
  if !thoughtCheck input then "Invalid thought: must be a string"
  else if !thoughtNumberCheck input then "Invalid thoughtNumber: must be a number"
  else if !totalThoughtsCheck input then "Invalid totalThoughts: must be a number"
  else if !nextThoughtNeededCheck input then "Invalid nextThoughtNeeded: must be a boolean"
  else ""

/-- Extraction of the string payload of a looked-up field (defaults unused). -/
def strOf : Option JSValue → String
  | some (.str s) => s
  | _ => ""

/-- Extraction of the numeric payload of a looked-up field. -/
def numOf : Option JSValue → Int
  | some (.num n) => n
  | _ => 0

/-- Extraction of the boolean payload of a looked-up field. -/
def boolOf : Option JSValue → Bool
  | some (.bool b) => b
  | _ => false

/-- The record `validateThoughtData` returns on success, reconstructed from the
input's fields. -/
def mkValidated (input : JSValue) : ThoughtData :=
  { thought := strOf (getField input "thought")
    thoughtNumber := numOf (getField input "thoughtNumber")
    totalThoughts := numOf (getField input "totalThoughts")
    nextThoughtNeeded := boolOf (getField input "nextThoughtNeeded")
    isRevision := getField input "isRevision"
    revisesThought := getField input "revisesThought"
    branchFromThought := getField input "branchFromThought"
    branchId := getField input "branchId"
    needsMoreThoughts := getField input "needsMoreThoughts" }


/-- Characterization of `validateThoughtData` on non-nullish inputs: it
succeeds with exactly the field values of the input when the four required
checks pass, and otherwise fails with the message of the first violated
check. -/
theorem validate_characterization (input : JSValue)
    (h1 : input ≠ JSValue.null) (h2 : input ≠ JSValue.undef) :
    (requiredChecksOk input = true → validateThoughtData input = .ok (mkValidated input)) ∧
    (requiredChecksOk input = false → validateThoughtData input = .error (firstViolationMsg input)) := by
  cases input with
  | null => exact absurd rfl h1
  | undef => exact absurd rfl h2
  | str s =>
    simp [requiredChecksOk, thoughtCheck, thoughtNumberCheck, totalThoughtsCheck,
      nextThoughtNeededCheck, firstViolationMsg, validateThoughtData, getField]
  | num n =>
    simp [requiredChecksOk, thoughtCheck, thoughtNumberCheck, totalThoughtsCheck,
      nextThoughtNeededCheck, firstViolationMsg, validateThoughtData, getField]
  | bool b =>
    simp [requiredChecksOk, thoughtCheck, thoughtNumberCheck, totalThoughtsCheck,
      nextThoughtNeededCheck, firstViolationMsg, validateThoughtData, getField]
  | obj fields =>
    rcases ht : getField (JSValue.obj fields) "thought" with _ | tv
    · simp [requiredChecksOk, thoughtCheck, firstViolationMsg, validateThoughtData, ht]
    · cases tv with
      | str s =>
        by_cases hs : s = ""
        · simp [requiredChecksOk, thoughtCheck, firstViolationMsg, validateThoughtData, ht, hs]
        · rcases hn : getField (JSValue.obj fields) "thoughtNumber" with _ | nv
          · simp [requiredChecksOk, thoughtCheck, thoughtNumberCheck, firstViolationMsg,
              validateThoughtData, ht, hs, hn]
          · cases nv with
            | num n0 =>
              by_cases hn0 : n0 = 0
              · simp [requiredChecksOk, thoughtCheck, thoughtNumberCheck, firstViolationMsg,
                  validateThoughtData, ht, hs, hn, hn0]
              · rcases htt : getField (JSValue.obj fields) "totalThoughts" with _ | tv2
                · simp [requiredChecksOk, thoughtCheck, thoughtNumberCheck, totalThoughtsCheck,
                    firstViolationMsg, validateThoughtData, ht, hs, hn, hn0, htt]
                · cases tv2 with
                  | num t0 =>
                    by_cases ht0 : t0 = 0
                    · simp [requiredChecksOk, thoughtCheck, thoughtNumberCheck, totalThoughtsCheck,
                        firstViolationMsg, validateThoughtData, ht, hs, hn, hn0, htt, ht0]
                    · rcases hnx : getField (JSValue.obj fields) "nextThoughtNeeded" with _ | xv
                      · simp [requiredChecksOk, thoughtCheck, thoughtNumberCheck, totalThoughtsCheck,
                          nextThoughtNeededCheck, firstViolationMsg, validateThoughtData,
                          ht, hs, hn, hn0, htt, ht0, hnx]
                      · cases xv with
                        | bool b0 =>
                          simp [requiredChecksOk, thoughtCheck, thoughtNumberCheck, totalThoughtsCheck,
                            nextThoughtNeededCheck, firstViolationMsg, validateThoughtData, mkValidated,
                            strOf, numOf, boolOf, ht, hs, hn, hn0, htt, ht0, hnx]
                        | _ =>
                          simp [requiredChecksOk, thoughtCheck, thoughtNumberCheck, totalThoughtsCheck,
                            nextThoughtNeededCheck, firstViolationMsg, validateThoughtData,
                            ht, hs, hn, hn0, htt, ht0, hnx]
                  | _ =>
                    simp [requiredChecksOk, thoughtCheck, thoughtNumberCheck, totalThoughtsCheck,
                      firstViolationMsg, validateThoughtData, ht, hs, hn, hn0, htt]
            | _ =>
              simp [requiredChecksOk, thoughtCheck, thoughtNumberCheck, firstViolationMsg,
                validateThoughtData, ht, hs, hn]
      | _ =>
        simp [requiredChecksOk, thoughtCheck, firstViolationMsg, validateThoughtData, ht]

/-- Claim C1: for every ledger state and every successfully appended record —
a call that returns a success summary — the summary's `thoughtHistoryLength`
equals the history length before the call plus one, the new history has
exactly one more record, and the old history survives unchanged as a prefix,
so no prior record is removed or mutated by the append. -/
theorem processThought_appends_exactly_one (s : ServerState) (input : JSValue)
    (h : (processThought s input).2.isError = none) :
    (processThought s input).1.thoughtHistory.length = s.thoughtHistory.length + 1 ∧
    (processThought s input).1.thoughtHistory.take s.thoughtHistory.length =
      s.thoughtHistory ∧
    summaryField (processThought s input).2 "thoughtHistoryLength" =
      some (.num (s.thoughtHistory.length + 1)) := by
  cases hv : validateThoughtData input with
  | error m =>
    rw [processThought_validation_error s input m hv] at h
    exact absurd h (by simp [errorResultFor])
  | ok v =>
    cases hc : (branchGuard (adjustTotal v) &&
        branchAppendThrows s.branches (branchKeyOf (adjustTotal v))) with
    | true =>
      rw [processThought_throw s input v hv hc] at h
      exact absurd h (by simp [errorResultFor])
    | false =>
      rw [processThought_ok s input v hv hc]
      refine ⟨by simp, List.take_left _ _, ?_⟩
      simp [successResultFor, summaryField, resultBody, jsonGet, List.find?]

/-- Concrete instance of `processThought_appends_exactly_one`. -/
def c1Input : JSValue :=
  .obj [("thought", .str "step one"), ("thoughtNumber", .num 1),
        ("totalThoughts", .num 2), ("nextThoughtNeeded", .bool true)]

/-- Witness for claim C1 at a concrete input. -/
theorem processThought_appends_exactly_one_witness :
    (processThought initState c1Input).2.isError = none ∧
    ((processThought initState c1Input).1.thoughtHistory.length =
        initState.thoughtHistory.length + 1 ∧
      (processThought initState c1Input).1.thoughtHistory.take
          initState.thoughtHistory.length = initState.thoughtHistory ∧
      summaryField (processThought initState c1Input).2 "thoughtHistoryLength" =
        some (.num (initState.thoughtHistory.length + 1))) :=
  ⟨rfl, processThought_appends_exactly_one initState c1Input rfl⟩

/-- Payload that validates but whose `branchId` names an `Object.prototype`
member. -/
def c2Proto : JSValue :=
  .obj [("thought", .str "x"), ("thoughtNumber", .num 5), ("totalThoughts", .num 3),
        ("nextThoughtNeeded", .bool true), ("branchFromThought", .num 1),
        ("branchId", .str "constructor")]

/-- Record produced by validating `c2Proto`. -/
def c2ProtoRecord : ThoughtData :=
  { thought := "x", thoughtNumber := 5, totalThoughts := 3
    nextThoughtNeeded := true, isRevision := none, revisesThought := none
    branchFromThought := some (.num 1), branchId := some (.str "constructor")
    needsMoreThoughts := none }

/-- Counterexample to claim C2 as stated: this payload validates, yet the call
returns the caught branch-append TypeError — an error result that carries no
`totalThoughts` field at all — because `branchId = "constructor"` hits the
inherited `Object.prototype.constructor` in the bucket-existence check and
`.push` on it throws. -/
theorem summary_total_claim_false_at_proto_key :
    validateThoughtData c2Proto = .ok c2ProtoRecord ∧
    summaryField (processThought initState c2Proto).2 "totalThoughts" = none ∧
    (processThought initState c2Proto).2.isError = some true :=
  ⟨rfl, rfl, rfl⟩

/-- Claim C2 (amended): for every validated record whose call returns a
success summary, the summary's `totalThoughts` is the record's `thoughtNumber`
when that exceeds the submitted `totalThoughts`, and the submitted
`totalThoughts` otherwise, i.e. the maximum of the two; a validated record
whose `branchId` collides with an `Object.prototype` key instead yields a
caught-TypeError failure with no summary. -/
theorem summary_totalThoughts_auto_raise (s : ServerState) (input : JSValue)
    (v : ThoughtData) (h : validateThoughtData input = .ok v)
    (hs : (processThought s input).2.isError = none) :
    summaryField (processThought s input).2 "totalThoughts" =
      some (.num (if v.thoughtNumber > v.totalThoughts then v.thoughtNumber
                  else v.totalThoughts)) ∧
    summaryField (processThought s input).2 "totalThoughts" =
      some (.num (max v.thoughtNumber v.totalThoughts)) := by
  have hm : (if v.thoughtNumber > v.totalThoughts then v.thoughtNumber
             else v.totalThoughts) = max v.thoughtNumber v.totalThoughts := by
    split <;> omega
  have htot : (adjustTotal v).totalThoughts =
      (if v.thoughtNumber > v.totalThoughts then v.thoughtNumber
       else v.totalThoughts) := by
    unfold adjustTotal; split <;> rfl
  cases hc : (branchGuard (adjustTotal v) &&
      branchAppendThrows s.branches (branchKeyOf (adjustTotal v))) with
  | true =>
    rw [processThought_throw s input v h hc] at hs
    exact absurd hs (by simp [errorResultFor])
  | false =>
    rw [processThought_ok s input v h hc]
    constructor
    · simp [successResultFor, summaryField, resultBody, jsonGet, List.find?, htot]
    · rw [← hm]
      simp [successResultFor, summaryField, resultBody, jsonGet, List.find?, htot]

/-- Concrete instance of `summary_totalThoughts_auto_raise`. -/
def c2Input : JSValue :=
  .obj [("thought", .str "overflow"), ("thoughtNumber", .num 5),
        ("totalThoughts", .num 3), ("nextThoughtNeeded", .bool false)]

/-- Record produced by validating `c2Input`. -/
def c2Record : ThoughtData :=
  { thought := "overflow", thoughtNumber := 5, totalThoughts := 3
    nextThoughtNeeded := false, isRevision := none, revisesThought := none
    branchFromThought := none, branchId := none, needsMoreThoughts := none }

/-- Witness for the amended claim C2 at a concrete input. -/
theorem summary_totalThoughts_auto_raise_witness :
    validateThoughtData c2Input = .ok c2Record ∧
    (processThought initState c2Input).2.isError = none ∧
    (summaryField (processThought initState c2Input).2 "totalThoughts" =
        some (.num (if c2Record.thoughtNumber > c2Record.totalThoughts
                    then c2Record.thoughtNumber else c2Record.totalThoughts)) ∧
      summaryField (processThought initState c2Input).2 "totalThoughts" =
        some (.num (max c2Record.thoughtNumber c2Record.totalThoughts))) :=
  ⟨rfl, rfl, summary_totalThoughts_auto_raise initState c2Input c2Record rfl rfl⟩

/-- First call of the spec's concrete scenario. -/
def scenarioCall1 : JSValue :=
  .obj [("thought", .str "A"), ("thoughtNumber", .num 1),
        ("totalThoughts", .num 3), ("nextThoughtNeeded", .bool true)]

/-- Second call of the spec's concrete scenario. -/
def scenarioCall2 : JSValue :=
  .obj [("thought", .str "B"), ("thoughtNumber", .num 5),
        ("totalThoughts", .num 3), ("nextThoughtNeeded", .bool false)]

/-- Claim C7: on a fresh ledger, the call `{thought:"A", thoughtNumber:1,
totalThoughts:3, nextThoughtNeeded:true}` returns the summary
`{thoughtNumber:1, totalThoughts:3, nextThoughtNeeded:true, branches:[],
thoughtHistoryLength:1}` and the subsequent call `{thought:"B",
thoughtNumber:5, totalThoughts:3, nextThoughtNeeded:false}` returns
`{thoughtNumber:5, totalThoughts:5, nextThoughtNeeded:false, branches:[],
thoughtHistoryLength:2}`. -/
theorem concrete_two_call_scenario :
    (processThought initState scenarioCall1).2 =
      { content := [{ type := "text"
                      text := .obj [("thoughtNumber", .num 1), ("totalThoughts", .num 3),
                                    ("nextThoughtNeeded", .bool true), ("branches", .arr []),
                                    ("thoughtHistoryLength", .num 1)] }]
        isError := none } ∧
    (processThought (processThought initState scenarioCall1).1 scenarioCall2).2 =
      { content := [{ type := "text"
                      text := .obj [("thoughtNumber", .num 5), ("totalThoughts", .num 5),
                                    ("nextThoughtNeeded", .bool false), ("branches", .arr []),
                                    ("thoughtHistoryLength", .num 2)] }]
        isError := none } :=
  ⟨rfl, rfl⟩

/-- Payload whose `thoughtNumber` is present and numeric but zero. -/
def c3Zero : JSValue :=
  .obj [("thought", .str "A"), ("thoughtNumber", .num 0),
        ("totalThoughts", .num 1), ("nextThoughtNeeded", .bool true)]

/-- Counterexample to claim C3 as stated: a payload with `thoughtNumber = 0`
satisfies the claim's conditions (all four fields present with the stated
types, `thought` non-empty), yet validation fails, because the source guard
`!data.thoughtNumber` also rejects falsy numbers. -/
theorem claimed_validation_false_at_zero :
    claimedValidationOk c3Zero = true ∧
    validateThoughtData c3Zero = .error "Invalid thoughtNumber: must be a number" :=
  ⟨rfl, rfl⟩

/-- Claim C3 (amended): for every payload other than `null`/`undefined`,
validation succeeds iff `thought` is a non-empty string, `thoughtNumber` and
`totalThoughts` are nonzero numbers, and `nextThoughtNeeded` is a boolean;
when it fails, the error is that of the first violated check in the order
`thought`, `thoughtNumber`, `totalThoughts`, `nextThoughtNeeded`. -/
theorem validate_ok_iff_required_checks (input : JSValue)
    (h1 : input ≠ JSValue.null) (h2 : input ≠ JSValue.undef) :
    ((validateThoughtData input).isOk = requiredChecksOk input) ∧
    (requiredChecksOk input = false →
      validateThoughtData input = .error (firstViolationMsg input)) := by
  obtain ⟨hok, herr⟩ := validate_characterization input h1 h2
  refine ⟨?_, herr⟩
  cases hr : requiredChecksOk input
  · rw [herr hr]; rfl
  · rw [hok hr]; rfl

/-- Concrete instance for the witness of the amended claim C3: a payload
missing `totalThoughts`. -/
def c3Partial : JSValue :=
  .obj [("thought", .str "A"), ("thoughtNumber", .num 2)]

/-- Witness for the amended claim C3 at a concrete input. -/
theorem validate_ok_iff_required_checks_witness :
    c3Partial ≠ JSValue.null ∧ c3Partial ≠ JSValue.undef ∧
    (validateThoughtData c3Partial).isOk = requiredChecksOk c3Partial ∧
    validateThoughtData c3Partial = .error (firstViolationMsg c3Partial) := by
  have h1 : c3Partial ≠ JSValue.null := fun h => nomatch h
  have h2 : c3Partial ≠ JSValue.undef := fun h => nomatch h
  obtain ⟨ha, hb⟩ := validate_ok_iff_required_checks c3Partial h1 h2
  exact ⟨h1, h2, ha, hb rfl⟩

/-- Lookup of a branch bucket by key. -/
def lookupBranch (branches : List (String × List ThoughtData)) (key : String) :
    Option (List ThoughtData) :=
  (branches.find? (fun p => p.1 == key)).map Prod.snd

/-- The `branches` array of a result's JSON summary, empty when absent. -/
def summaryBranches (r : ToolResult) : List Json :=
  match summaryField r "branches" with
  | some (.arr items) => items
  | _ => []

/-- Adjusting the total leaves `branchFromThought` unchanged. -/
theorem adjustTotal_branchFromThought (v : ThoughtData) :
    (adjustTotal v).branchFromThought = v.branchFromThought := by
  unfold adjustTotal; split <;> rfl

/-- Adjusting the total leaves `branchId` unchanged. -/
theorem adjustTotal_branchId (v : ThoughtData) :
    (adjustTotal v).branchId = v.branchId := by
  unfold adjustTotal; split <;> rfl

/-- Pushing under a key different from the head's leaves the head in place. -/
theorem pushBranch_cons_ne (hd : String × List ThoughtData)
    (tl : List (String × List ThoughtData)) (key : String) (r : ThoughtData)
    (h : (hd.1 == key) = false) :
    pushBranch (hd :: tl) key r = hd :: pushBranch tl key r := by
  have hne : hd.1 ≠ key := by simpa using h
  simp only [pushBranch, List.any_cons, h, Bool.false_or]
  split <;> simp [hne]

/-- Pushing a record appends it, exactly once, to the bucket of its key. -/
theorem lookupBranch_pushBranch (br : List (String × List ThoughtData))
    (key : String) (r : ThoughtData) :
    lookupBranch (pushBranch br key r) key =
      some ((lookupBranch br key).getD [] ++ [r]) := by
  induction br with
  | nil => simp [pushBranch, lookupBranch]
  | cons hd tl ih =>
    cases hk : (hd.1 == key) with
    | true =>
      have heq : hd.1 = key := by simpa using hk
      have hany : (hd :: tl).any (fun p => p.1 == key) = true := by
        simp [List.any_cons, hk]
      simp [pushBranch, hany, lookupBranch, List.find?_cons, hk, heq]
    | false =>
      rw [pushBranch_cons_ne hd tl key r hk]
      simpa [lookupBranch, List.find?_cons, hk] using ih

/-- Keys of the branches object after a push. -/
theorem keys_pushBranch (br : List (String × List ThoughtData)) (key : String)
    (r : ThoughtData) :
    (pushBranch br key r).map Prod.fst =
      if br.any (fun p => p.1 == key) then br.map Prod.fst
      else br.map Prod.fst ++ [key] := by
  simp only [pushBranch]
  split
  · rw [List.map_map]
    exact List.map_congr_left (fun p _ => by simp only [Function.comp_apply]; split <;> rfl)
  · simp

/-- The pushed key is a key of the resulting branches object. -/
theorem mem_keys_pushBranch (br : List (String × List ThoughtData)) (key : String)
    (r : ThoughtData) :
    key ∈ (pushBranch br key r).map Prod.fst := by
  rw [keys_pushBranch]
  split
  · next hany =>
    rw [List.any_eq_true] at hany
    obtain ⟨p, hp, hpk⟩ := hany
    rw [beq_iff_eq] at hpk
    exact hpk ▸ List.mem_map_of_mem Prod.fst hp
  · simp

/-- A push never removes a key. -/
theorem mem_keys_pushBranch_mono (br : List (String × List ThoughtData))
    (key k : String) (r : ThoughtData) (h : k ∈ br.map Prod.fst) :
    k ∈ (pushBranch br key r).map Prod.fst := by
  rw [keys_pushBranch]
  split
  · exact h
  · exact List.mem_append_left _ h

/-- The branches object after a call is either unchanged (validation failure,
branch-append TypeError, or no branch fields) or the result of one push. -/
theorem processThought_branches_cases (s : ServerState) (i : JSValue) :
    (processThought s i).1.branches = s.branches ∨
    ∃ key v, (processThought s i).1.branches = pushBranch s.branches key v := by
  cases hv : validateThoughtData i with
  | error m => left; rw [processThought_validation_error s i m hv]
  | ok v =>
    cases hc : (branchGuard (adjustTotal v) &&
        branchAppendThrows s.branches (branchKeyOf (adjustTotal v))) with
    | true => left; rw [processThought_throw s i v hv hc]
    | false =>
      rw [processThought_ok s i v hv hc]
      cases hg : branchGuard (adjustTotal v) with
      | true =>
        right
        exact ⟨branchKeyOf (adjustTotal v), adjustTotal v, by simp [hg]⟩
      | false => left; simp [hg]

/-- A call never removes a branch key from the server state. -/
theorem branchKeys_mono (s : ServerState) (i : JSValue) (k : String)
    (hk : k ∈ s.branches.map Prod.fst) :
    k ∈ (processThought s i).1.branches.map Prod.fst := by
  rcases processThought_branches_cases s i with hbe | ⟨key, v, hbe⟩
  · rw [hbe]; exact hk
  · rw [hbe]; exact mem_keys_pushBranch_mono _ _ _ _ hk

/-- No sequence of further calls removes a branch key. -/
theorem branchKeys_mono_runCalls (s : ServerState) (inputs : List JSValue)
    (k : String) (hk : k ∈ s.branches.map Prod.fst) :
    k ∈ (runCalls s inputs).branches.map Prod.fst := by
  induction inputs generalizing s with
  | nil => exact hk
  | cons i rest ih => exact ih _ (branchKeys_mono s i k hk)

/-- On success, the summary's `branches` array lists the state's branch keys. -/
theorem summaryBranches_ok (s : ServerState) (i : JSValue)
    (hs : (processThought s i).2.isError = none) :
    summaryBranches (processThought s i).2 =
      (processThought s i).1.branches.map (fun p => Json.str p.1) := by
  cases hv : validateThoughtData i with
  | error m =>
    rw [processThought_validation_error s i m hv] at hs
    exact absurd hs (by simp [errorResultFor])
  | ok v =>
    cases hc : (branchGuard (adjustTotal v) &&
        branchAppendThrows s.branches (branchKeyOf (adjustTotal v))) with
    | true =>
      rw [processThought_throw s i v hv hc] at hs
      exact absurd hs (by simp [errorResultFor])
    | false =>
      rw [processThought_ok s i v hv hc]
      simp [successResultFor, summaryBranches, summaryField, resultBody, jsonGet,
        List.find?]

/-- Branch key membership transfers to a successful summary's `branches`
array. -/
theorem mem_summaryBranches_of_key (s : ServerState) (i : JSValue) (k : String)
    (hs : (processThought s i).2.isError = none)
    (hk : k ∈ (processThought s i).1.branches.map Prod.fst) :
    Json.str k ∈ summaryBranches (processThought s i).2 := by
  rw [summaryBranches_ok s i hs]
  have : (processThought s i).1.branches.map (fun p => Json.str p.1) =
      ((processThought s i).1.branches.map Prod.fst).map Json.str := by
    rw [List.map_map]; rfl
  rw [this]
  exact List.mem_map_of_mem Json.str hk

/-- Payload whose `branchId` is present but the empty string (falsy). -/
def c4Empty : JSValue :=
  .obj [("thought", .str "A"), ("thoughtNumber", .num 1), ("totalThoughts", .num 1),
        ("nextThoughtNeeded", .bool false), ("branchFromThought", .num 1),
        ("branchId", .str "")]

/-- Payload whose branch fields are present and truthy but whose `branchId`
names an `Object.prototype` member. -/
def c4Proto : JSValue :=
  .obj [("thought", .str "B"), ("thoughtNumber", .num 2), ("totalThoughts", .num 2),
        ("nextThoughtNeeded", .bool false), ("branchFromThought", .num 1),
        ("branchId", .str "toString")]

/-- Counterexample to claim C4 as stated, at two inputs.  With
`branchId = ""`, present but falsy, the truthiness guard skips the branch
append, so the record appears in no branches entry and the summary's branches
list stays empty.  With `branchId = "toString"`, present, truthy and
non-empty, the bucket-existence check sees the inherited
`Object.prototype.toString`, `.push` on it throws, and the call returns an
error with the record again in no branches entry. -/
theorem branch_present_not_sufficient :
    ((∃ v, validateThoughtData c4Empty = .ok v ∧
        v.branchFromThought.isSome = true ∧ v.branchId.isSome = true) ∧
      (processThought initState c4Empty).1.branches = [] ∧
      summaryBranches (processThought initState c4Empty).2 = []) ∧
    ((∃ v, validateThoughtData c4Proto = .ok v ∧
        truthyOpt v.branchFromThought = true ∧ truthyOpt v.branchId = true) ∧
      (processThought initState c4Proto).1.branches = [] ∧
      (processThought initState c4Proto).2.isError = some true) :=
  ⟨⟨⟨{ thought := "A", thoughtNumber := 1, totalThoughts := 1
       nextThoughtNeeded := false, isRevision := none, revisesThought := none
       branchFromThought := some (.num 1), branchId := some (.str "")
       needsMoreThoughts := none }, rfl, rfl, rfl⟩, rfl, rfl⟩,
   ⟨⟨{ thought := "B", thoughtNumber := 2, totalThoughts := 2
       nextThoughtNeeded := false, isRevision := none, revisesThought := none
       branchFromThought := some (.num 1), branchId := some (.str "toString")
       needsMoreThoughts := none }, rfl, rfl, rfl⟩, rfl, rfl⟩⟩

/-- Claim C4 (amended): for every validated record whose `branchFromThought`
and `branchId` are present and truthy and whose branch key is not an
`Object.prototype` member, the append adds the record exactly once to
`thoughtHistory` and exactly once to the branches bucket of its key; the key
is in the summary's branches list of that call and of every subsequent
successful call on the session. -/
theorem branch_membership_persists (s : ServerState) (input : JSValue)
    (v : ThoughtData) (rest : List JSValue) (j : JSValue) (w : ThoughtData)
    (h : validateThoughtData input = .ok v)
    (hb : truthyOpt v.branchFromThought = true)
    (hid : truthyOpt v.branchId = true)
    (hproto : objectProtoKeys.contains (toPropertyKey (v.branchId.getD .undef)) = false)
    (hj : validateThoughtData j = .ok w)
    (hjs : (processThought (runCalls (processThought s input).1 rest) j).2.isError =
      none) :
    (processThought s input).1.thoughtHistory = s.thoughtHistory ++ [adjustTotal v] ∧
    lookupBranch (processThought s input).1.branches
        (toPropertyKey (v.branchId.getD .undef)) =
      some ((lookupBranch s.branches (toPropertyKey (v.branchId.getD .undef))).getD []
              ++ [adjustTotal v]) ∧
    Json.str (toPropertyKey (v.branchId.getD .undef)) ∈
      summaryBranches (processThought s input).2 ∧
    Json.str (toPropertyKey (v.branchId.getD .undef)) ∈
      summaryBranches
        (processThought (runCalls (processThought s input).1 rest) j).2 := by
  have hkeyeq : branchKeyOf (adjustTotal v) = toPropertyKey (v.branchId.getD .undef) := by
    rw [branchKeyOf, adjustTotal_branchId]
  have hgd : branchGuard (adjustTotal v) = true := by
    rw [branchGuard, adjustTotal_branchFromThought, adjustTotal_branchId, hb, hid]; rfl
  have hthrow : branchAppendThrows s.branches (branchKeyOf (adjustTotal v)) = false := by
    rw [hkeyeq]
    unfold branchAppendThrows
    rw [hproto, Bool.and_false]
  have hc : (branchGuard (adjustTotal v) &&
      branchAppendThrows s.branches (branchKeyOf (adjustTotal v))) = false := by
    rw [hthrow, Bool.and_false]
  have hok := processThought_ok s input v h hc
  have hbr : (processThought s input).1.branches =
      pushBranch s.branches (toPropertyKey (v.branchId.getD .undef)) (adjustTotal v) := by
    rw [hok]; simp [hgd, hkeyeq]
  have hs1 : (processThought s input).2.isError = none := by
    rw [hok]; rfl
  have hkey : toPropertyKey (v.branchId.getD .undef) ∈
      (processThought s input).1.branches.map Prod.fst := by
    rw [hbr]; exact mem_keys_pushBranch _ _ _
  refine ⟨by rw [hok], ?_, ?_, ?_⟩
  · rw [hbr]; exact lookupBranch_pushBranch _ _ _
  · exact mem_summaryBranches_of_key s input _ hs1 hkey
  · exact mem_summaryBranches_of_key _ j _ hjs
      (branchKeys_mono _ j _ (branchKeys_mono_runCalls _ rest _ hkey))

/-- Concrete branching input for the witness of the amended claim C4. -/
def c4Input : JSValue :=
  .obj [("thought", .str "alt"), ("thoughtNumber", .num 2), ("totalThoughts", .num 3),
        ("nextThoughtNeeded", .bool true), ("branchFromThought", .num 1),
        ("branchId", .str "b1")]

/-- Record produced by validating `c4Input`. -/
def c4Record : ThoughtData :=
  { thought := "alt", thoughtNumber := 2, totalThoughts := 3
    nextThoughtNeeded := true, isRevision := none, revisesThought := none
    branchFromThought := some (.num 1), branchId := some (.str "b1")
    needsMoreThoughts := none }

/-- Follow-up input for the witness of the amended claim C4. -/
def c4Next : JSValue :=
  .obj [("thought", .str "later"), ("thoughtNumber", .num 3), ("totalThoughts", .num 3),
        ("nextThoughtNeeded", .bool false)]

/-- Record produced by validating `c4Next`. -/
def c4NextRecord : ThoughtData :=
  { thought := "later", thoughtNumber := 3, totalThoughts := 3
    nextThoughtNeeded := false, isRevision := none, revisesThought := none
    branchFromThought := none, branchId := none, needsMoreThoughts := none }

/-- Witness for the amended claim C4 at concrete inputs. -/
theorem branch_membership_persists_witness :
    validateThoughtData c4Input = .ok c4Record ∧
    truthyOpt c4Record.branchFromThought = true ∧
    truthyOpt c4Record.branchId = true ∧
    objectProtoKeys.contains (toPropertyKey (c4Record.branchId.getD .undef)) = false ∧
    validateThoughtData c4Next = .ok c4NextRecord ∧
    (processThought (runCalls (processThought initState c4Input).1 []) c4Next).2.isError =
      none ∧
    ((processThought initState c4Input).1.thoughtHistory =
        initState.thoughtHistory ++ [adjustTotal c4Record] ∧
      lookupBranch (processThought initState c4Input).1.branches
          (toPropertyKey (c4Record.branchId.getD .undef)) =
        some ((lookupBranch initState.branches
                  (toPropertyKey (c4Record.branchId.getD .undef))).getD []
                ++ [adjustTotal c4Record]) ∧
      Json.str (toPropertyKey (c4Record.branchId.getD .undef)) ∈
        summaryBranches (processThought initState c4Input).2 ∧
      Json.str (toPropertyKey (c4Record.branchId.getD .undef)) ∈
        summaryBranches
          (processThought (runCalls (processThought initState c4Input).1 []) c4Next).2) :=
  ⟨rfl, rfl, rfl, rfl, rfl, rfl,
    branch_membership_persists initState c4Input c4Record [] c4Next c4NextRecord
      rfl rfl rfl rfl rfl rfl⟩

/-- Length of the history after a run equals the starting length plus the
number of validated inputs (each validated call appends exactly one record,
whether it then succeeds or hits the branch-append TypeError). -/
theorem runCalls_length (s : ServerState) (inputs : List JSValue) :
    (runCalls s inputs).thoughtHistory.length =
      s.thoughtHistory.length +
        inputs.countP (fun i => (validateThoughtData i).isOk) := by
  induction inputs generalizing s with
  | nil => simp [runCalls]
  | cons i rest ih =>
    have hstep : runCalls s (i :: rest) = runCalls (processThought s i).1 rest := rfl
    rw [hstep, ih]
    cases hv : validateThoughtData i with
    | error m =>
      rw [processThought_validation_error s i m hv]
      simp [List.countP_cons, hv, Except.isOk, Except.toBool]
    | ok v =>
      have hlen : (processThought s i).1.thoughtHistory.length =
          s.thoughtHistory.length + 1 := by
        cases hc : (branchGuard (adjustTotal v) &&
            branchAppendThrows s.branches (branchKeyOf (adjustTotal v))) with
        | true => rw [processThought_throw s i v hv hc]; simp
        | false => rw [processThought_ok s i v hv hc]; simp
      rw [hlen]
      simp [List.countP_cons, hv, Except.isOk, Except.toBool]
      omega

/-- Payload that validates but whose branch append throws: its call returns
an error result yet still grows the history. -/
def c5Proto : JSValue :=
  .obj [("thought", .str "y"), ("thoughtNumber", .num 1), ("totalThoughts", .num 1),
        ("nextThoughtNeeded", .bool true), ("branchFromThought", .num 1),
        ("branchId", .str "valueOf")]

/-- Counterexample to claim C5 as stated: this call returns an error result
(`isError = true`, the caught branch-append TypeError) yet appends a record to
the history, so failed calls do not all leave the ledger unchanged and the
history length exceeds the number of successful calls. -/
theorem failed_call_mutates_at_proto_key :
    (processThought initState c5Proto).2.isError = some true ∧
    (processThought initState c5Proto).1.thoughtHistory.length =
      initState.thoughtHistory.length + 1 :=
  ⟨rfl, rfl⟩

/-- Claim C5 (amended): a payload that fails validation returns an error
result and leaves the server state (history and branches) exactly as it was;
after any interleaving of calls the history length equals the number of calls
that passed validation — which exceeds the number of successful calls when
branch-append TypeError failures occur, since those append before failing. -/
theorem failed_call_preserves_state (s : ServerState) (input : JSValue)
    (msg : String) (inputs : List JSValue)
    (h : validateThoughtData input = .error msg) :
    (processThought s input).1 = s ∧
    (processThought s input).2.isError = some true ∧
    (runCalls initState inputs).thoughtHistory.length =
      inputs.countP (fun i => (validateThoughtData i).isOk) := by
  refine ⟨?_, ?_, ?_⟩
  · rw [processThought_validation_error s input msg h]
  · rw [processThought_validation_error s input msg h]; rfl
  · simpa [initState] using runCalls_length initState inputs

/-- Payload with no `thought` field, for the witness of claim C5. -/
def c5Bad : JSValue :=
  .obj [("thoughtNumber", .num 1), ("totalThoughts", .num 1),
        ("nextThoughtNeeded", .bool false)]

/-- Witness for claim C5 at a concrete failed payload and interleaving. -/
theorem failed_call_preserves_state_witness :
    validateThoughtData c5Bad = .error "Invalid thought: must be a string" ∧
    ((processThought initState c5Bad).1 = initState ∧
      (processThought initState c5Bad).2.isError = some true ∧
      (runCalls initState [c5Bad, c1Input, c5Bad]).thoughtHistory.length =
        List.countP (fun i => (validateThoughtData i).isOk) [c5Bad, c1Input, c5Bad]) :=
  ⟨rfl, failed_call_preserves_state initState c5Bad
    "Invalid thought: must be a string" [c5Bad, c1Input, c5Bad] rfl⟩

/-- Claim C6: `processThought` is total over arbitrary inputs, object or not:
every call returns a result, either a success result with `isError` absent or
a failure — validation error or caught branch-append TypeError alike — whose
single content block carries the JSON body `{ error: message, status:
"failed" }` and is tagged with `isError = true`. -/
theorem processThought_total_result_shape (s : ServerState) (input : JSValue) :
    (processThought s input).2.isError = none ∨
    (∃ msg, (processThought s input).2 =
      { content := [{ type := "text"
                      text := .obj [("error", .str msg), ("status", .str "failed")] }]
        isError := some true }) := by
  cases hv : validateThoughtData input with
  | error m =>
    exact Or.inr ⟨m, by rw [processThought_validation_error s input m hv]; rfl⟩
  | ok v =>
    cases hc : (branchGuard (adjustTotal v) &&
        branchAppendThrows s.branches (branchKeyOf (adjustTotal v))) with
    | true =>
      exact Or.inr ⟨pushTypeErrorMsg, by rw [processThought_throw s input v hv hc]; rfl⟩
    | false =>
      exact Or.inl (by rw [processThought_ok s input v hv hc]; rfl)

/-- Claim C8: whenever the four required checks pass — whatever the values of
the optional fields, including wrongly-typed ones — validation succeeds, and
each of the five optional fields is carried into the record verbatim, `none`
exactly when absent. -/
theorem optional_fields_passthrough (input : JSValue)
    (h : requiredChecksOk input = true) :
    ∃ v, validateThoughtData input = .ok v ∧
      v.isRevision = getField input "isRevision" ∧
      v.revisesThought = getField input "revisesThought" ∧
      v.branchFromThought = getField input "branchFromThought" ∧
      v.branchId = getField input "branchId" ∧
      v.needsMoreThoughts = getField input "needsMoreThoughts" := by
  have h1 : input ≠ JSValue.null := by
    intro he
    rw [he] at h
    simp [requiredChecksOk, thoughtCheck, getField] at h
  have h2 : input ≠ JSValue.undef := by
    intro he
    rw [he] at h
    simp [requiredChecksOk, thoughtCheck, getField] at h
  obtain ⟨hok, -⟩ := validate_characterization input h1 h2
  exact ⟨mkValidated input, hok h, rfl, rfl, rfl, rfl, rfl⟩

/-- Payload whose optional fields carry wrongly-typed values, for the witness
of claim C8. -/
def c8Input : JSValue :=
  .obj [("thought", .str "T"), ("thoughtNumber", .num 1), ("totalThoughts", .num 2),
        ("nextThoughtNeeded", .bool true), ("isRevision", .num 7),
        ("revisesThought", .str "oops"), ("needsMoreThoughts", .str "yes")]

/-- Record produced by validating `c8Input`, wrongly-typed optional values
carried verbatim. -/
def c8Record : ThoughtData :=
  { thought := "T", thoughtNumber := 1, totalThoughts := 2
    nextThoughtNeeded := true, isRevision := some (.num 7)
    revisesThought := some (.str "oops"), branchFromThought := none
    branchId := none, needsMoreThoughts := some (.str "yes") }

/-- Witness for claim C8 at a concrete input with wrongly-typed optional
fields. -/
theorem optional_fields_passthrough_witness :
    requiredChecksOk c8Input = true ∧
    validateThoughtData c8Input = .ok c8Record ∧
    c8Record.isRevision = getField c8Input "isRevision" ∧
    c8Record.revisesThought = getField c8Input "revisesThought" ∧
    c8Record.branchFromThought = getField c8Input "branchFromThought" ∧
    c8Record.branchId = getField c8Input "branchId" ∧
    c8Record.needsMoreThoughts = getField c8Input "needsMoreThoughts" := by
  obtain ⟨v, hv, h1, h2, h3, h4, h5⟩ := optional_fields_passthrough c8Input rfl
  have hv2 : (Except.ok c8Record : Except String ThoughtData) = Except.ok v := by
    rw [← hv]; rfl
  injection hv2 with he
  subst he
  exact ⟨rfl, hv, h1, h2, h3, h4, h5⟩

/-- Embedding of `SessionState`: the per-session thinking server plus its
`lastAccessed` timestamp (milliseconds). -/
structure SessionEntry where
  server : ServerState
  lastAccessed : Int

/-- Idle threshold of the cleanup sweep: one hour in milliseconds. -/
def SESSION_TIMEOUT_MS : Int := 60 * 60 * 1000

/-- One tick of the cleanup interval of `runServer`: every session whose idle
time strictly exceeds the threshold is removed (in the source the removal goes
through `transport.close()` and its `onclose` callback, both of which delete
exactly that session's entries). -/
def cleanupTick (now : Int) (sessions : List (String × SessionEntry)) :
    List (String × SessionEntry) :=
  sessions.filter (fun e => !(decide (now - e.2.lastAccessed > SESSION_TIMEOUT_MS)))

/-- Lookup of `sessionStates[sessionId]`. -/
def lookupSession (sessions : List (String × SessionEntry)) (sid : String) :
    Option SessionEntry :=
  (sessions.find? (fun p => p.1 == sid)).map Prod.snd

/-- Result returned by the tool-call handler when the session is unknown. -/
def sessionNotFound : ToolResult :=
  { content := [{ type := "text", text := .str "Session not found for tool call" }]
    isError := some true }

/-- Replacement of a session's entry in the registry. -/
def updateSession (sessions : List (String × SessionEntry)) (sid : String)
    (e : SessionEntry) : List (String × SessionEntry) :=
  sessions.map (fun p => if p.1 == sid then (p.1, e) else p)

/-- Embedding of the `CallToolRequestSchema` handler of `runServer`: an absent
or falsy session id, or one not in `sessionStates`, yields the not-found
error; otherwise `lastAccessed` is refreshed and the tool is dispatched. -/
def handleCallTool (now : Int) (sessions : List (String × SessionEntry))
    (sessionId : Option String) (toolName : String) (args : JSValue) :
    List (String × SessionEntry) × ToolResult :=
  match sessionId with
  | none => (sessions, sessionNotFound)
  | some sid =>
    if sid = "" then (sessions, sessionNotFound)
    else
      match lookupSession sessions sid with
      | none => (sessions, sessionNotFound)
      | some entry =>
        if toolName = "sequentialthinking" then
          let (srv, res) := processThought entry.server args
          (updateSession sessions sid { server := srv, lastAccessed := now }, res)
        else
          (updateSession sessions sid { entry with lastAccessed := now },
           { content := [{ type := "text", text := .str ("Unknown tool: " ++ toolName) }]
             isError := some true })

/-- A key absent from the registry's key list has no entry. -/
theorem lookupSession_eq_none (l : List (String × SessionEntry)) (sid : String)
    (h : sid ∉ l.map Prod.fst) : lookupSession l sid = none := by
  induction l with
  | nil => rfl
  | cons hd tl ih =>
    simp only [List.map_cons, List.mem_cons, not_or] at h
    have hne : (hd.1 == sid) = false := by
      rw [beq_eq_false_iff_ne]
      exact fun hh => h.1 hh.symm
    simp only [lookupSession, List.find?_cons, hne]
    exact ih h.2

/-- Effect of one cleanup tick on a registered session: evicted exactly when
its idle time exceeds the threshold, untouched otherwise. -/
theorem lookup_cleanupTick (now : Int) (sessions : List (String × SessionEntry))
    (sid : String) (entry : SessionEntry)
    (hnd : (sessions.map Prod.fst).Nodup)
    (hl : lookupSession sessions sid = some entry) :
    lookupSession (cleanupTick now sessions) sid =
      if now - entry.lastAccessed > SESSION_TIMEOUT_MS then none else some entry := by
  induction sessions with
  | nil => simp [lookupSession] at hl
  | cons hd tl ih =>
    rw [List.map_cons, List.nodup_cons] at hnd
    cases hk : (hd.1 == sid) with
    | true =>
      have heq : hd.1 = sid := by simpa using hk
      have hentry : hd.2 = entry := by
        simpa [lookupSession, List.find?_cons, hk] using hl
      by_cases hidle : now - entry.lastAccessed > SESSION_TIMEOUT_MS
      · have hdrop : (!(decide (now - hd.2.lastAccessed > SESSION_TIMEOUT_MS))) = false := by
          rw [hentry]; simpa using hidle
        rw [cleanupTick, List.filter_cons, hdrop, if_neg (by simp)]
        rw [if_pos hidle]
        apply lookupSession_eq_none
        intro hmem
        have hsub : (List.filter
            (fun e => !(decide (now - e.2.lastAccessed > SESSION_TIMEOUT_MS))) tl).map
              Prod.fst ⊆ tl.map Prod.fst :=
          List.map_subset Prod.fst (List.filter_subset' _)
        exact hnd.1 (heq ▸ hsub hmem)
      · have hkeep : (!(decide (now - hd.2.lastAccessed > SESSION_TIMEOUT_MS))) = true := by
          rw [hentry]; simpa using hidle
        rw [cleanupTick, List.filter_cons, hkeep, if_pos rfl]
        rw [if_neg hidle]
        simpa [lookupSession, List.find?_cons, hk] using hentry
    | false =>
      have hl' : lookupSession tl sid = some entry := by
        simpa [lookupSession, List.find?_cons, hk] using hl
      have ihr := ih hnd.2 hl'
      rw [cleanupTick, List.filter_cons]
      cases hkeep : (!(decide (now - hd.2.lastAccessed > SESSION_TIMEOUT_MS))) with
      | true =>
        rw [if_pos rfl]
        simpa [lookupSession, List.find?_cons, hk, cleanupTick] using ihr
      | false =>
        rw [if_neg Bool.false_ne_true]
        simpa [cleanupTick] using ihr

/-- The tool-call handler rejects an unknown session id without touching the
registry. -/
theorem handleCallTool_not_found (now : Int)
    (sessions : List (String × SessionEntry)) (sid : String) (toolName : String)
    (args : JSValue) (h : lookupSession sessions sid = none) :
    handleCallTool now sessions (some sid) toolName args =
      (sessions, sessionNotFound) := by
  by_cases he : sid = ""
  · simp [handleCallTool, he]
  · simp [handleCallTool, he, h]

/-- Claim C9: after one cleanup tick, a registered session idle strictly
longer than the threshold is gone from the registry and a subsequent call with
its id yields the session-not-found error without touching the registry; a
session at or below the threshold keeps its entry unchanged; and each
session's survival depends only on its own timestamp, so evictions are
independent per session. -/
theorem reaper_tick_spec (now later : Int)
    (sessions : List (String × SessionEntry)) (sid : String)
    (entry : SessionEntry) (toolName : String) (args : JSValue)
    (hnd : (sessions.map Prod.fst).Nodup)
    (hl : lookupSession sessions sid = some entry) :
    (now - entry.lastAccessed > SESSION_TIMEOUT_MS →
       lookupSession (cleanupTick now sessions) sid = none ∧
       handleCallTool later (cleanupTick now sessions) (some sid) toolName args =
         (cleanupTick now sessions, sessionNotFound)) ∧
    (now - entry.lastAccessed ≤ SESSION_TIMEOUT_MS →
       lookupSession (cleanupTick now sessions) sid = some entry) ∧
    (∀ p ∈ sessions,
       (p ∈ cleanupTick now sessions ↔ now - p.2.lastAccessed ≤ SESSION_TIMEOUT_MS)) := by
  have hchar := lookup_cleanupTick now sessions sid entry hnd hl
  refine ⟨?_, ?_, ?_⟩
  · intro hidle
    rw [if_pos hidle] at hchar
    exact ⟨hchar, handleCallTool_not_found later _ sid toolName args hchar⟩
  · intro hfresh
    rwa [if_neg (not_lt.mpr hfresh)] at hchar
  · intro p hp
    simp [cleanupTick, List.mem_filter, hp, not_lt]

/-- Concrete registry for the witness of claim C9: session `"a"` idle past the
threshold, session `"b"` fresh. -/
def c9Sessions : List (String × SessionEntry) :=
  [("a", { server := initState, lastAccessed := 0 }),
   ("b", { server := initState, lastAccessed := 3000000 })]

/-- Witness for claim C9 at a concrete registry and clock: session `"a"` is
evicted and subsequently not found, while session `"b"` survives the same tick
unchanged. -/
theorem reaper_tick_spec_witness :
    (c9Sessions.map Prod.fst).Nodup ∧
    lookupSession c9Sessions "a" = some { server := initState, lastAccessed := 0 } ∧
    lookupSession c9Sessions "b" =
      some { server := initState, lastAccessed := 3000000 } ∧
    lookupSession (cleanupTick 4000000 c9Sessions) "a" = none ∧
    handleCallTool 4100000 (cleanupTick 4000000 c9Sessions) (some "a")
        "sequentialthinking" .null =
      (cleanupTick 4000000 c9Sessions, sessionNotFound) ∧
    lookupSession (cleanupTick 4000000 c9Sessions) "b" =
      some { server := initState, lastAccessed := 3000000 } := by
  have hnd : (c9Sessions.map Prod.fst).Nodup := by
    simp [c9Sessions]
  have hla : lookupSession c9Sessions "a" =
      some { server := initState, lastAccessed := 0 } := rfl
  have hlb : lookupSession c9Sessions "b" =
      some { server := initState, lastAccessed := 3000000 } := rfl
  obtain ⟨hevict, -, -⟩ :=
    reaper_tick_spec 4000000 4100000 c9Sessions "a"
      { server := initState, lastAccessed := 0 } "sequentialthinking" .null hnd hla
  obtain ⟨-, hkeep, -⟩ :=
    reaper_tick_spec 4000000 4100000 c9Sessions "b"
      { server := initState, lastAccessed := 3000000 } "sequentialthinking" .null hnd hlb
  obtain ⟨hgone, hcall⟩ := hevict (by norm_num [SESSION_TIMEOUT_MS])
  exact ⟨hnd, hla, hlb, hgone, hcall, hkeep (by norm_num [SESSION_TIMEOUT_MS])⟩

/-- Invariant of a server state: every stored record, in the history and in
every branches bucket, has `thoughtNumber ≤ totalThoughts`. -/
def stateInv (s : ServerState) : Prop :=
  (∀ r ∈ s.thoughtHistory, r.thoughtNumber ≤ r.totalThoughts) ∧
  (∀ p ∈ s.branches, ∀ r ∈ p.2, r.thoughtNumber ≤ r.totalThoughts)

/-- The auto-raise step establishes the invariant on the appended record. -/
theorem adjustTotal_le (v : ThoughtData) :
    (adjustTotal v).thoughtNumber ≤ (adjustTotal v).totalThoughts := by
  unfold adjustTotal
  split
  · exact le_refl _
  · next h => omega

/-- A push preserves a per-record property that the new record satisfies. -/
theorem pushBranch_records (br : List (String × List ThoughtData)) (key : String)
    (r : ThoughtData) (P : ThoughtData → Prop)
    (hbr : ∀ p ∈ br, ∀ x ∈ p.2, P x) (hr : P r) :
    ∀ p ∈ pushBranch br key r, ∀ x ∈ p.2, P x := by
  intro p hp x hx
  unfold pushBranch at hp
  split at hp
  · obtain ⟨q, hq, hfq⟩ := List.mem_map.mp hp
    rw [← hfq] at hx
    cases hqk : (q.1 == key) with
    | true =>
      simp [hqk] at hx
      rcases hx with hx | hx
      · exact hbr q hq x hx
      · rw [hx]; exact hr
    | false =>
      simp [hqk] at hx
      exact hbr q hq x hx
  · rcases List.mem_append.mp hp with hp | hp
    · exact hbr p hp x hx
    · rw [List.mem_singleton.mp hp] at hx
      rw [List.mem_singleton.mp hx]
      exact hr

/-- A validated call appends the adjusted record and either leaves the
branches object unchanged (no branch fields, or branch-append TypeError) or
pushes the record under its branch key. -/
theorem processThought_ok_state (s : ServerState) (i : JSValue) (v : ThoughtData)
    (h : validateThoughtData i = .ok v) :
    (processThought s i).1.thoughtHistory = s.thoughtHistory ++ [adjustTotal v] ∧
    ((processThought s i).1.branches = s.branches ∨
      (processThought s i).1.branches =
        pushBranch s.branches (branchKeyOf (adjustTotal v)) (adjustTotal v)) := by
  cases hc : (branchGuard (adjustTotal v) &&
      branchAppendThrows s.branches (branchKeyOf (adjustTotal v))) with
  | true => rw [processThought_throw s i v h hc]; exact ⟨rfl, Or.inl rfl⟩
  | false =>
    rw [processThought_ok s i v h hc]
    cases hg : branchGuard (adjustTotal v) with
    | true => exact ⟨rfl, Or.inr (by simp [hg])⟩
    | false => exact ⟨rfl, Or.inl (by simp [hg])⟩

/-- One call preserves the state invariant. -/
theorem stateInv_processThought (s : ServerState) (i : JSValue)
    (h : stateInv s) : stateInv (processThought s i).1 := by
  obtain ⟨hh, hb⟩ := h
  cases hv : validateThoughtData i with
  | error m =>
    have hs : (processThought s i).1 = s := by
      rw [processThought_validation_error s i m hv]
    rw [hs]; exact ⟨hh, hb⟩
  | ok v =>
    obtain ⟨hhist, hbr⟩ := processThought_ok_state s i v hv
    constructor
    · intro r hr
      rw [hhist] at hr
      rcases List.mem_append.mp hr with hr | hr
      · exact hh r hr
      · rw [List.mem_singleton.mp hr]; exact adjustTotal_le v
    · rcases hbr with hbr | hbr
      · rw [hbr]; exact hb
      · rw [hbr]
        exact pushBranch_records s.branches _ (adjustTotal v) _ hb (adjustTotal_le v)

/-- A run of calls preserves the state invariant. -/
theorem stateInv_runCalls (s : ServerState) (inputs : List JSValue)
    (h : stateInv s) : stateInv (runCalls s inputs) := by
  induction inputs generalizing s with
  | nil => exact h
  | cons i rest ih => exact ih _ (stateInv_processThought s i h)

/-- Claim C10: in every state reachable from a fresh server, every record
stored in the history or in any branches bucket satisfies
`thoughtNumber ≤ totalThoughts`, because the auto-raise adjustment is applied
before the record is stored; no store retains a pre-adjustment estimate. -/
theorem reachable_history_auto_raised (inputs : List JSValue) (r : ThoughtData)
    (hr : r ∈ (runCalls initState inputs).thoughtHistory ∨
          ∃ p ∈ (runCalls initState inputs).branches, r ∈ p.2) :
    r.thoughtNumber ≤ r.totalThoughts := by
  have hinv : stateInv (runCalls initState inputs) :=
    stateInv_runCalls initState inputs
      ⟨fun r hr => by simp [initState] at hr, fun p hp => by simp [initState] at hp⟩
  rcases hr with hr | ⟨p, hp, hx⟩
  · exact hinv.1 r hr
  · exact hinv.2 p hp r hx

/-- Payload whose `thoughtNumber` exceeds its `totalThoughts`, for the witness
of claim C10. -/
def c10Input : JSValue :=
  .obj [("thought", .str "big"), ("thoughtNumber", .num 5),
        ("totalThoughts", .num 3), ("nextThoughtNeeded", .bool false)]

/-- Record stored after processing `c10Input`: the estimate is auto-raised. -/
def c10Record : ThoughtData :=
  { thought := "big", thoughtNumber := 5, totalThoughts := 5
    nextThoughtNeeded := false, isRevision := none, revisesThought := none
    branchFromThought := none, branchId := none, needsMoreThoughts := none }

/-- Witness for claim C10 at a concrete run. -/
theorem reachable_history_auto_raised_witness :
    c10Record ∈ (runCalls initState [c10Input]).thoughtHistory ∧
    c10Record.thoughtNumber ≤ c10Record.totalThoughts := by
  have hmem : c10Record ∈ (runCalls initState [c10Input]).thoughtHistory := by
    show c10Record ∈ [c10Record]
    exact List.mem_singleton.mpr rfl
  exact ⟨hmem,
    reachable_history_auto_raised [c10Input] c10Record (Or.inl hmem)⟩

end SeqThink
